import Mathlib

/-!
Verification of the `tc_variant` annotation pipeline
(`src/tc_variant/tcvariant.py`, class `TcVariantAnnotation`).

The Python code is shallowly embedded:
* the validation regex `NC_\d{6}.(11|12):g.\d{8,9}(A|C|G|T)>(A|G|T)` is
  embedded as an abstract-syntax tree `Rx` together with a backtracking
  matcher `mruns`; `re.match` (anchored at the start only) corresponds to
  `accepts`;
* JSON values are the inductive `Json`; Python `obj[key]`, `obj[0]`,
  iteration and truthiness are modelled by `pyGetItemStr`, `pyGetItemNat`,
  `pyIterate` and `jTruthy`, with `none` standing for a raised
  `KeyError` / `TypeError` / `IndexError`;
* the HTTP layer is an explicit `Response` value (`fault` for a
  transport-level exception from `requests.get`, otherwise a status code
  and a parsed body, `none` meaning `response.json()` raised);
* every `try/except Exception` that logs and falls through is modelled by
  a total function returning the Python fall-through value
  (`None` becomes `Json.null` or `Option.none`, `dict()` becomes `[]`);
* the written TSV file is modelled as the `String` of its content;
  `Option.none` means the file was never created (the `open` call raised,
  or `data[0]` raised before `open`);
* `annotate_single_variant` / `annotate_variants_from_file` take the
  remote server as a function `fetch : String → Response` (the code
  issues the request twice per file-mode variant; with a deterministic
  oracle both calls return the same response) and a `writable` flag
  modelling whether `open(output_file, 'wt')` succeeds.
-/

set_option autoImplicit false

namespace TcVariant

/-! ## Regular-expression engine (for `re.match` on the fixed pattern) -/

/-- Abstract syntax of the fragment of Python regexes used by the variant
pattern: literals, the any-character dot, one-character classes given by a
predicate (`\d`, used via `Char.isDigit`; Python also accepts non-ASCII
Unicode decimal digits for `\d`, which the inputs in scope never contain),
concatenation, alternation and the empty regex. -/
inductive Rx where
  | eps
  | lit (c : Char)
  | anyc
  | cls (p : Char → Bool)
  | seq (a b : Rx)
  | alt (a b : Rx)

/-- Append the runs of `f` over every element (a hand-rolled `flatMap`). -/
def runsSeq (f : List Char → List (List Char)) : List (List Char) → List (List Char)
  | [] => []
  | x :: xs => f x ++ runsSeq f xs

/-- All suffixes left over after matching `r` against a prefix of the input.
`re.match` succeeds iff this list is non-empty. The dot does not match a
newline (the code does not pass `re.DOTALL`). -/
def mruns : Rx → List Char → List (List Char)
  | .eps, l => [l]
  | .lit _, [] => []
  | .lit c, x :: xs => if x = c then [xs] else []
  | .anyc, [] => []
  | .anyc, x :: xs => if x = '\n' then [] else [xs]
  | .cls _, [] => []
  | .cls p, x :: xs => if p x then [xs] else []
  | .seq a b, l => runsSeq (fun l2 => mruns b l2) (mruns a l)
  | .alt a b, l => mruns a l ++ mruns b l

/-- Boolean acceptance: some prefix of `l` matches `r`. -/
def accepts (r : Rx) (l : List Char) : Bool := !(mruns r l).isEmpty

/-- Propositional counterpart of `accepts`. -/
def Accepts (r : Rx) (l : List Char) : Prop := mruns r l ≠ []

/-- The class `(A|C|G|T)` (reference base). -/
def isRefBase (c : Char) : Bool := c = 'A' || c = 'C' || c = 'G' || c = 'T'

/-- The class `(A|G|T)` (alternate base as actually written in the code;
note the missing `C`). -/
def isAltBase (c : Char) : Bool := c = 'A' || c = 'G' || c = 'T'

/-- `\d` of the pattern. -/
def rxDigit : Rx := .cls Char.isDigit

/-- `(A|C|G|T)` of the pattern. -/
def rxRefBase : Rx := .alt (.lit 'A') (.alt (.lit 'C') (.alt (.lit 'G') (.lit 'T')))

/-- `(A|G|T)` of the pattern. -/
def rxAltBase : Rx := .alt (.lit 'A') (.alt (.lit 'G') (.lit 'T'))

/-- `(11|12)` of the pattern. -/
def rxVersion : Rx := .alt (.seq (.lit '1') (.lit '1')) (.seq (.lit '1') (.lit '2'))

/-- `:g.\d{8,9}(A|C|G|T)>(A|G|T)` — the tail of the pattern after the
version group. `\d{8,9}` is written as eight mandatory digits followed by
an optional ninth (`alt rxDigit eps`), which accepts exactly the same
strings as the bounded repetition. -/
def rxTail : Rx :=
  .seq (.lit ':') (.seq (.lit 'g') (.seq .anyc
  (.seq rxDigit (.seq rxDigit (.seq rxDigit (.seq rxDigit
  (.seq rxDigit (.seq rxDigit (.seq rxDigit (.seq rxDigit
  (.seq (.alt rxDigit .eps)
  (.seq rxRefBase (.seq (.lit '>') rxAltBase)))))))))))))

/-- The full pattern `NC_\d{6}.(11|12):g.\d{8,9}(A|C|G|T)>(A|G|T)` from
`validate_variant`. The two unescaped dots are `anyc`. -/
def variantRx : Rx :=
  .seq (.lit 'N') (.seq (.lit 'C') (.seq (.lit '_')
  (.seq rxDigit (.seq rxDigit (.seq rxDigit (.seq rxDigit
  (.seq rxDigit (.seq rxDigit
  (.seq .anyc (.seq rxVersion rxTail))))))))))

/-- `TcVariantAnnotation.validate_variant`: returns `0` when `re.match`
finds a match of the pattern at the start of the string and `1`
otherwise. -/
def validate_variant (variant : String) : Nat :=
  if accepts variantRx variant.data then 0 else 1

/-! ## JSON values and Python item access -/

/-- A parsed JSON value as produced by `response.json()`; `null` doubles
as the Python `None` (which is what `json.loads` produces for `null`). -/
inductive Json where
  | null
  | bool (b : Bool)
  | num (n : Int)
  | str (s : String)
  | arr (elems : List Json)
  | obj (fields : List (String × Json))

mutual

/-- Python `==` on JSON values (structural deep equality). -/
def Json.beq : Json → Json → Bool
  | .null, .null => true
  | .bool a, .bool b => a == b
  | .num a, .num b => a == b
  | .str a, .str b => a == b
  | .arr a, .arr b => Json.beqArr a b
  | .obj a, .obj b => Json.beqObj a b
  | _, _ => false

/-- Elementwise `Json.beq` on lists. -/
def Json.beqArr : List Json → List Json → Bool
  | [], [] => true
  | x :: xs, y :: ys => Json.beq x y && Json.beqArr xs ys
  | _, _ => false

/-- Elementwise `Json.beq` on key-value lists. -/
def Json.beqObj : List (String × Json) → List (String × Json) → Bool
  | [], [] => true
  | (k, v) :: xs, (l, w) :: ys => k == l && Json.beq v w && Json.beqObj xs ys
  | _, _ => false

end

instance : BEq Json := ⟨Json.beq⟩

/-- A record built by `parse_variant_data` — a Python dict in insertion
order. -/
abbrev Rec := List (String × Json)

/-- Python `j[k]` for a string key `k`: only a dict succeeds (and only
when the key is present); every other shape raises `TypeError` /
`KeyError`, modelled as `none`. Keys coming from JSON are unique, so the
first binding is the binding. -/
def pyGetItemStr (j : Json) (k : String) : Option Json :=
  match j with
  | .obj kvs => kvs.lookup k
  | _ => none

/-- Python `j[0]`: the first element of a list, the first character of a
string; a dict raises `KeyError` (JSON object keys are strings, never the
integer `0`), everything else raises `TypeError`. -/
def pyGetItemNat (j : Json) : Option Json :=
  match j with
  | .arr (x :: _) => some x
  | .str s =>
    match s.data with
    | c :: _ => some (.str (String.mk [c]))
    | [] => none
  | _ => none

/-- Python `for x in j`: lists yield their elements, strings their
one-character substrings, dicts their keys; other values raise
`TypeError`. -/
def pyIterate (j : Json) : Option (List Json) :=
  match j with
  | .arr l => some l
  | .str s => some (s.data.map (fun c => .str (String.mk [c])))
  | .obj kvs => some (kvs.map (fun kv => .str kv.1))
  | _ => none

/-- Python truthiness of a JSON value (`if api_data:`). -/
def jTruthy (j : Json) : Bool :=
  match j with
  | .null => false
  | .bool b => b
  | .num n => n != 0
  | .str s => s != ""
  | .arr l => !l.isEmpty
  | .obj kvs => !kvs.isEmpty

/-! ## Fetcher (`get_variant_data`) -/

/-- One observed HTTP exchange: either the `requests.get` call raised a
transport-level exception, or it produced a status code and a body
(`none` when `response.json()` raises on a malformed body). -/
inductive Response where
  | fault
  | ok (status : Nat) (body : Option Json)

/-- `TcVariantAnnotation.get_variant_data`. Inside `try`: when the status
is not `200` the code first evaluates
`logging.error(f'... {response.json()["error"]}')` — which itself raises
unless the body is a dict with an `"error"` key — and then falls through
to `return response.json()[0]` in every case. Any exception is caught and
the method returns `None` (here `Json.null`). -/
def get_variant_data (resp : Response) : Json :=
  match resp with
  | .fault => .null
  | .ok status body =>
    if status ≠ 200 then
      match body with
      | none => .null
      | some j =>
        match pyGetItemStr j "error" with
        | none => .null
        | some _ =>
          match pyGetItemNat j with
          | some x => x
          | none => .null
    else
      match body with
      | none => .null
      | some j =>
        match pyGetItemNat j with
        | some x => x
        | none => .null

/-! ## Extractor (`parse_variant_data`) -/

/-- The gene-symbol loop: walk `transcript_consequences`, read
`tc['gene_symbol']` (a raised `KeyError`/`TypeError` is `none`) and
append it to the accumulator unless it is already present. -/
def collectSyms : List Json → List Json → Option (List Json)
  | [], acc => some acc
  | tc :: rest, acc =>
    match pyGetItemStr tc "gene_symbol" with
    | none => none
    | some g => collectSyms rest (if acc.contains g then acc else acc ++ [g])

/-- Python `str` check used by `','.join`: the list of payloads when
every element is a string, `none` (a raised `TypeError`) otherwise. -/
def strList : List Json → Option (List String)
  | [] => some []
  | .str s :: rest => (strList rest).map (fun t => s :: t)
  | _ => none

/-- Python `','.join(gene_symbol_list)`: raises `TypeError` unless every
element is a string. -/
def joinComma (l : List Json) : Option String :=
  (strList l).map (fun strs => ",".intercalate strs)

/-- The `try` block of `parse_variant_data`: `none` is a raised
exception. On success the dict literal has its keys in the written
order. -/
def parseCore (variant : String) (json_data : Json) : Option Rec := do
  let tcsJ ← pyGetItemStr json_data "transcript_consequences"
  let tcs ← pyIterate tcsJ
  let syms ← collectSyms tcs []
  let gs ← joinComma syms
  let a ← pyGetItemStr json_data "assembly_name"
  let s ← pyGetItemStr json_data "seq_region_name"
  let st ← pyGetItemStr json_data "start"
  let e ← pyGetItemStr json_data "end"
  let m ← pyGetItemStr json_data "most_severe_consequence"
  let sd ← pyGetItemStr json_data "strand"
  pure [("variant", .str variant), ("assembly_name", a), ("seq_region_name", s),
        ("start", st), ("end", e), ("most_severe_consequence", m),
        ("strand", sd), ("gene_symbols", .str gs)]

/-- `TcVariantAnnotation.parse_variant_data`: the `except` branch returns
the empty dict. -/
def parse_variant_data (variant : String) (json_data : Json) : Rec :=
  (parseCore variant json_data).getD []

/-! ## Writer (`write_tsv`) -/

/-- An ASCII apostrophe (Python quote character for `repr`). -/
def pyQ : String := String.mk [Char.ofNat 39]

mutual

/-- Python `repr`, as used by `str()` on lists and dicts. Strings are
shown between single quotes (escaping of quotes inside the string is not
reproduced; no record in scope contains one). -/
def pyRepr : Json → String
  | .null => "None"
  | .bool true => "True"
  | .bool false => "False"
  | .num n => toString n
  | .str s => pyQ ++ s ++ pyQ
  | .arr l => "[" ++ ", ".intercalate (pyReprList l) ++ "]"
  | .obj kvs => "\x7b" ++ ", ".intercalate (pyReprObj kvs) ++ "\x7d"

/-- Helper of `pyRepr` for list elements. -/
def pyReprList : List Json → List String
  | [] => []
  | x :: xs => pyRepr x :: pyReprList xs

/-- Helper of `pyRepr` for dict entries. -/
def pyReprObj : List (String × Json) → List String
  | [] => []
  | (k, v) :: xs => (pyQ ++ k ++ pyQ ++ ": " ++ pyRepr v) :: pyReprObj xs

end

/-- Python `str(v)` for a cell value. -/
def pyStr (j : Json) : String :=
  match j with
  | .str s => s
  | j => pyRepr j

/-- How `csv.writer` renders one cell: `None` becomes the empty field,
everything else goes through `str`. -/
def csvVal (j : Json) : String :=
  match j with
  | .null => ""
  | j => pyStr j

/-- `QUOTE_MINIMAL`: a field is quoted iff it contains the delimiter, the
quote character or a line-terminator character. -/
def csvNeedsQuote (s : String) : Bool :=
  s.data.any (fun c => c = '\t' || c = '"' || c = '\r' || c = '\n')

/-- Render one field under `QUOTE_MINIMAL` with quote-doubling. -/
def csvField (s : String) : String :=
  if csvNeedsQuote s then "\"" ++ s.replace "\"" "\"\"" ++ "\"" else s

/-- One physical row: tab-separated fields plus the csv module's default
`\r\n` terminator (passed through verbatim because the file is opened
with `newline=''`). -/
def csvRowString (fields : List String) : String :=
  "\t".intercalate (fields.map csvField) ++ "\r\n"

/-- `csv.DictWriter._dict_to_list`: a key outside `fieldnames` raises
`ValueError`; a missing key falls back to `restval = None`, which the
writer renders as an empty field. -/
def dictToRow (fieldnames : List String) (r : Rec) : Option (List String) :=
  if r.all (fun kv => fieldnames.contains kv.1) then
    some (fieldnames.map (fun k =>
      match r.lookup k with
      | some v => csvVal v
      | none => ""))
  else none

/-- `dict_writer.writerows(data)`: rows are emitted in order until a row
raises, which aborts the remaining writes (the content so far stays in
the file). -/
def writeRows (fieldnames : List String) : List Rec → String
  | [] => ""
  | r :: rest =>
    match dictToRow fieldnames r with
    | none => ""
    | some fields => csvRowString fields ++ writeRows fieldnames rest

/-- `TcVariantAnnotation.write_tsv`. `data[0].keys()` is evaluated before
`open`, so an empty list raises `IndexError` (caught, logged) and no file
is created; `writable = false` models `open` itself raising. The result
is the content of the created file, `none` when no file was created. -/
def write_tsv (writable : Bool) (data : List Rec) : Option String :=
  match data with
  | [] => none
  | first :: _ =>
    if writable then
      let keys := first.map Prod.fst
      some (csvRowString keys ++ writeRows keys data)
    else none

/-! ## Orchestrators -/

/-- Python `str.strip()`: drop leading and trailing whitespace
(the ASCII whitespace characters, which cover every input in scope). -/
def pyStrip (s : String) : String :=
  String.mk (((s.data.dropWhile Char.isWhitespace).reverse.dropWhile Char.isWhitespace).reverse)

/-- Observable outcome of one run: the content of the output file (`none`
when it was never created) and the value returned to the caller. Both
Python methods end every path with an implicit `return None` and no
exception escapes them, hence `err` is `none` on every path of the
embedding. -/
structure RunResult where
  file : Option String
  err : Option String
deriving DecidableEq

/-- `TcVariantAnnotation.annotate_single_variant`. -/
def annotate_single_variant (fetch : String → Response) (writable : Bool)
    (variant0 : String) : RunResult :=
  let variant := pyStrip variant0
  if validate_variant variant ≠ 0 then
    { file := none, err := none }
  else
    let parsed := parse_variant_data variant (get_variant_data (fetch variant))
    { file := write_tsv writable [parsed], err := none }

/-- The accumulation loop of `annotate_variants_from_file`: strip each
line, skip it when validation fails, fetch (`api_data`), skip when the
response value is falsy, otherwise fetch a second time and append the
parsed record. -/
def annotate_loop (fetch : String → Response) : List String → List Rec → List Rec
  | [], data => data
  | line :: rest, data =>
    let variant := pyStrip line
    if validate_variant variant ≠ 0 then
      annotate_loop fetch rest data
    else
      let api_data := get_variant_data (fetch variant)
      if jTruthy api_data then
        annotate_loop fetch rest
          (data ++ [parse_variant_data variant (get_variant_data (fetch variant))])
      else
        annotate_loop fetch rest data

/-- `TcVariantAnnotation.annotate_variants_from_file`: run the loop over
the stripped lines of the input file, then write the accumulated list
once. -/
def annotate_variants_from_file (fetch : String → Response) (writable : Bool)
    (lines : List String) : RunResult :=
  { file := write_tsv writable (annotate_loop fetch lines []), err := none }

/-! ## Spec-side definitions (for comparison with the code) -/

/-- Modelled from the spec: the base part of the documented pattern —
`<base>><base>` with base in ACGT on both sides. -/
def specBase : List Char → Bool
  | rb :: '>' :: ab :: _ => isRefBase rb && isRefBase ab
  | _ => false

/-- Modelled from the spec: `<8-9 digits><base>><base>`. -/
def specTail (l : List Char) : Bool :=
  match l with
  | e1 :: e2 :: e3 :: e4 :: e5 :: e6 :: e7 :: e8 :: rest =>
    e1.isDigit && e2.isDigit && e3.isDigit && e4.isDigit &&
    e5.isDigit && e6.isDigit && e7.isDigit && e8.isDigit &&
    (match rest with
     | c :: rest2 => if c.isDigit then specBase rest2 else specBase rest
     | [] => false)
  | _ => false

/-- Modelled from the spec (§3, §8): a string whose prefix matches
`NC_<6 digits>.(11|12):g.<8-9 digits><base>><base>` with literal dots and
base in ACGT on both sides of the `>`. -/
def specVariantPattern (s : String) : Bool :=
  match s.data with
  | 'N' :: 'C' :: '_' :: d1 :: d2 :: d3 :: d4 :: d5 :: d6 :: '.' :: '1' :: v ::
      ':' :: 'g' :: '.' :: rest =>
    d1.isDigit && d2.isDigit && d3.isDigit && d4.isDigit && d5.isDigit && d6.isDigit &&
    (v = '1' || v = '2') && specTail rest
  | _ => false

/-- The language actually accepted by the code's regex, written as an
explicit decomposition: the two dot positions hold arbitrary
(non-newline) characters and the alternate base ranges over AGT only. -/
def CodePrefixPattern (l : List Char) : Prop :=
  ∃ (d1 d2 d3 d4 d5 d6 : Char) (x : Char) (v : Char) (y : Char)
    (m : List Char) (rb ab : Char) (rest : List Char),
    l = 'N' :: 'C' :: '_' :: d1 :: d2 :: d3 :: d4 :: d5 :: d6 :: x :: '1' :: v ::
        ':' :: 'g' :: y :: (m ++ rb :: '>' :: ab :: rest) ∧
    (d1.isDigit ∧ d2.isDigit ∧ d3.isDigit ∧ d4.isDigit ∧ d5.isDigit ∧ d6.isDigit) ∧
    x ≠ '\n' ∧ (v = '1' ∨ v = '2') ∧ y ≠ '\n' ∧
    (m.length = 8 ∨ m.length = 9) ∧ (∀ c ∈ m, c.isDigit) ∧
    isRefBase rb = true ∧ isAltBase ab = true

/-- First-seen-order deduplication accumulator (spec §4.3 wording). -/
def dedupAux : List String → List String → List String
  | [], acc => acc
  | x :: xs, acc => dedupAux xs (if acc.contains x then acc else acc ++ [x])

/-- Unique elements in first-seen order (spec §4.3 wording). -/
def dedupFirstSeen (l : List String) : List String := dedupAux l []

/-- The fixed header of the output file (spec §4.4). -/
def header8 : List String :=
  ["variant", "assembly_name", "seq_region_name", "start", "end",
   "most_severe_consequence", "strand", "gene_symbols"]

/-- A record is well formed when its keys are exactly the eight header
names in order and every rendered value is free of csv metacharacters. -/
def WellFormedRec (r : Rec) : Prop :=
  r.map Prod.fst = header8 ∧ ∀ kv ∈ r, csvNeedsQuote (csvVal kv.2) = false

/-- Concatenation of a list of rendered rows (used to state the writer's
output). -/
def concatRows (l : List String) : String := l.foldr (fun a b => a ++ b) ""

/-- What one input line contributes in batch mode, written as a single
step function (used to restate the accumulation loop). -/
def fileStep (fetch : String → Response) (line : String) : Option Rec :=
  let variant := pyStrip line
  if validate_variant variant ≠ 0 then none
  else if jTruthy (get_variant_data (fetch variant)) then
    some (parse_variant_data variant (get_variant_data (fetch variant)))
  else none

/-! ## Concrete test fixtures -/

/-- A server that always fails at the transport level. -/
def fetchFault : String → Response := fun _ => .fault

/-- A fully populated annotation body (as returned inside the JSON array
by the endpoint), with no transcript consequences. -/
def goodBody : Json :=
  .obj [("transcript_consequences", .arr []),
        ("assembly_name", .str "GRCh38"), ("seq_region_name", .str "6"),
        ("start", .num 152387156), ("end", .num 152387156),
        ("most_severe_consequence", .str "downstream_gene_variant"),
        ("strand", .num 1)]

/-- A server that always answers 200 with `[goodBody]`. -/
def fetchGood : String → Response := fun _ => .ok 200 (some (.arr [goodBody]))

/-- A server that answers 200 with a body whose single element carries
none of the required fields. -/
def fetchNoFields : String → Response := fun _ => .ok 200 (some (.arr [.obj [("x", .num 1)]]))

/-- A body with duplicated gene symbols (spec §8 sample) and all required
top-level fields. -/
def brca1Body : Json :=
  .obj [("transcript_consequences",
          .arr [.obj [("gene_symbol", .str "BRCA1")],
                .obj [("gene_symbol", .str "BRCA1")],
                .obj [("gene_symbol", .str "TP53")]]),
        ("assembly_name", .str "GRCh38"), ("seq_region_name", .str "17"),
        ("start", .num 43044295), ("end", .num 43044295),
        ("most_severe_consequence", .str "missense_variant"),
        ("strand", .num 1)]

/-- A body with every required field except `strand`. -/
def strandlessBody : Json :=
  .obj [("transcript_consequences", .arr [.obj [("gene_symbol", .str "BRCA1")]]),
        ("assembly_name", .str "GRCh38"), ("seq_region_name", .str "17"),
        ("start", .num 43044295), ("end", .num 43044295),
        ("most_severe_consequence", .str "missense_variant")]

/-- A well-formed output record (spec §8 sample). -/
def sampleRec : Rec :=
  [("variant", .str "NC_000006.12:g.152387156G>A"),
   ("assembly_name", .str "GRCh38"), ("seq_region_name", .str "6"),
   ("start", .num 152387156), ("end", .num 152387156),
   ("most_severe_consequence", .str "downstream_gene_variant"),
   ("strand", .num 1), ("gene_symbols", .str "SYNGAP1")]

/-! ## Structure of `parse_variant_data` results -/

theorem parseCore_eq_some (v : String) (j : Json) (r : Rec) (h : parseCore v j = some r) :
    ∃ tcsJ tcs syms gs a s st e m sd,
      pyGetItemStr j "transcript_consequences" = some tcsJ ∧
      pyIterate tcsJ = some tcs ∧
      collectSyms tcs [] = some syms ∧
      joinComma syms = some gs ∧
      pyGetItemStr j "assembly_name" = some a ∧
      pyGetItemStr j "seq_region_name" = some s ∧
      pyGetItemStr j "start" = some st ∧
      pyGetItemStr j "end" = some e ∧
      pyGetItemStr j "most_severe_consequence" = some m ∧
      pyGetItemStr j "strand" = some sd ∧
      r = [("variant", .str v), ("assembly_name", a), ("seq_region_name", s),
           ("start", st), ("end", e), ("most_severe_consequence", m),
           ("strand", sd), ("gene_symbols", .str gs)] := by
  simp only [parseCore, bind, Option.bind_eq_some, pure, Option.some.injEq] at h
  obtain ⟨tcsJ, h1, tcs, h2, syms, h3, gs, h4, a, h5, s, h6, st, h7, e, h8, m, h9, sd, h10, hr⟩ := h
  exact ⟨tcsJ, tcs, syms, gs, a, s, st, e, m, sd, h1, h2, h3, h4, h5, h6, h7, h8, h9, h10, hr.symm⟩

theorem collectSyms_isSome (tcs : List Json) :
    ∀ (acc syms : List Json), collectSyms tcs acc = some syms →
      ∀ tc ∈ tcs, (pyGetItemStr tc "gene_symbol").isSome := by
  induction tcs with
  | nil => simp
  | cons tc rest ih =>
    intro acc syms h tc' htc'
    rw [collectSyms] at h
    cases hg : pyGetItemStr tc "gene_symbol" with
    | none => rw [hg] at h; exact absurd h (by simp)
    | some g =>
      rw [hg] at h
      rcases List.mem_cons.mp htc' with rfl | hmem
      · simp [hg]
      · exact ih _ syms h tc' hmem

/-! ## Claim theorems -/

/-- C2: on an input file whose lines are all invalid, the code accumulates
no records and `write_tsv` is called with the empty list; `data[0].keys()`
then raises `IndexError`, the exception is caught and logged, and no
output file is created at all — the run "completes", but contrary to the
claim there is no header-only output file. -/
theorem C2_all_invalid_no_file :
    annotate_variants_from_file fetchFault true ["bad_variant"] =
      { file := none, err := none } := rfl

/-- C3 counterexample: a transport-level fetch failure on a valid
single variant does not abort the pipeline: `get_variant_data` returns
`None`, `parse_variant_data` swallows the resulting `TypeError` and
returns the empty dict, and `write_tsv` happily writes a file holding an
empty header line and one empty row, while the method reports no error to
its caller. -/
theorem C3_counterexample :
    annotate_single_variant fetchFault true "NC_000006.12:g.152387156G>A" =
      { file := some "\r\n\r\n", err := none } := rfl

/-- C3 (amended): in single-variant mode a validation failure skips the
remaining stages and writes no file; but a fetch or extract failure does
not abort — the empty record is written, producing a file of two empty
lines — and in every case the method returns no error to its caller. -/
theorem C3_amended_single_variant (fetch : String → Response) (v : String) :
    (validate_variant (pyStrip v) ≠ 0 →
      annotate_single_variant fetch true v = { file := none, err := none }) ∧
    (validate_variant (pyStrip v) = 0 →
      parse_variant_data (pyStrip v) (get_variant_data (fetch (pyStrip v))) = [] →
      annotate_single_variant fetch true v = { file := some "\r\n\r\n", err := none }) := by
  constructor
  · intro h
    simp [annotate_single_variant, h]
  · intro h hp
    simp only [annotate_single_variant, h, ne_eq, not_true_eq_false, if_false, hp,
      not_false_eq_true, if_true]
    rfl

/-- C3 witness: the amended statement at the concrete transport-failure
scenario. -/
theorem C3_amended_witness :
    annotate_single_variant fetchFault true "NC_000006.12:g.152387156G>A" =
      { file := some "\r\n\r\n", err := none } :=
  (C3_amended_single_variant fetchFault "NC_000006.12:g.152387156G>A").2 rfl rfl

/-- C9 counterexample: with a fully successful fetch but an output path
that cannot be opened, the single-variant run creates no file and still
returns no error — the caller cannot distinguish it from success, contrary
to the claim that write failures are reported. -/
theorem C9_counterexample :
    annotate_single_variant fetchGood false "NC_000006.12:g.152387156G>A" =
      { file := none, err := none } := rfl

/-- C9 (amended): a write failure (the `open` inside `write_tsv` raising)
is caught and only logged: both batch and single-variant runs complete
normally, return no error to their caller, and simply produce no output
file. -/
theorem C9_amended_write_failure_swallowed (fetch : String → Response)
    (lines : List String) (v : String) :
    annotate_variants_from_file fetch false lines = { file := none, err := none } ∧
    annotate_single_variant fetch false v = { file := none, err := none } := by
  have hw : ∀ data : List Rec, write_tsv false data = none := by
    intro data; cases data <;> simp [write_tsv]
  constructor
  · simp [annotate_variants_from_file, hw]
  · by_cases h : validate_variant (pyStrip v) ≠ 0 <;> simp [annotate_single_variant, h, hw]

/-- C10: `parse_variant_data` is total (every exception is caught), and
its result is either the empty record or the full eight-field record in
the fixed key order, with the `variant` field equal to the input variant
string; no partially populated record is ever produced. -/
theorem C10_record_shape (v : String) (j : Json) :
    parse_variant_data v j = [] ∨
    ∃ a s st e m sd gs,
      parse_variant_data v j =
        [("variant", .str v), ("assembly_name", a), ("seq_region_name", s),
         ("start", st), ("end", e), ("most_severe_consequence", m),
         ("strand", sd), ("gene_symbols", .str gs)] := by
  unfold parse_variant_data
  cases hp : parseCore v j with
  | none => exact Or.inl rfl
  | some r =>
    obtain ⟨tcsJ, tcs, syms, gs, a, s, st, e, m, sd, _, _, _, _, _, _, _, _, _, _, hr⟩ :=
      parseCore_eq_some v j r hp
    exact Or.inr ⟨a, s, st, e, m, sd, gs, by simp [hr]⟩

/-- C6 counterexample: on a JSON object carrying none of the required
fields, `parse_variant_data` does not signal any error — the `KeyError`
is caught and the method returns the empty dict as an ordinary value. -/
theorem C6_counterexample :
    parse_variant_data "NC_000006.12:g.152387156G>A" (.obj []) = [] := rfl

/-- C6 (amended): whenever a required field is absent or the JSON shape
does not match expectations (`transcript_consequences` missing or not
iterable, an element without `gene_symbol`, or any missing top-level
field), `parse_variant_data` returns the empty record — not an explicit
error, but also never a populated record. -/
theorem C6_amended_missing_field_empty (v : String) (j : Json)
    (h : pyGetItemStr j "transcript_consequences" = none ∨
         (∃ tcsJ, pyGetItemStr j "transcript_consequences" = some tcsJ ∧
            pyIterate tcsJ = none) ∨
         (∃ tcsJ tcs tc, pyGetItemStr j "transcript_consequences" = some tcsJ ∧
            pyIterate tcsJ = some tcs ∧ tc ∈ tcs ∧
            pyGetItemStr tc "gene_symbol" = none) ∨
         pyGetItemStr j "assembly_name" = none ∨
         pyGetItemStr j "seq_region_name" = none ∨
         pyGetItemStr j "start" = none ∨
         pyGetItemStr j "end" = none ∨
         pyGetItemStr j "most_severe_consequence" = none ∨
         pyGetItemStr j "strand" = none) :
    parse_variant_data v j = [] := by
  unfold parse_variant_data
  cases hp : parseCore v j with
  | none => rfl
  | some r =>
    exfalso
    obtain ⟨tcsJ, tcs, syms, gs, a, s, st, e, m, sd, h1, h2, h3, h4, h5, h6, h7, h8, h9, h10, _⟩ :=
      parseCore_eq_some v j r hp
    rcases h with h | ⟨tcsJ2, ha, hb⟩ | ⟨tcsJ2, tcs2, tc, ha, hb, hc, hd⟩ |
      h | h | h | h | h | h
    · exact Option.some_ne_none _ (h ▸ h1).symm
    · rw [h1] at ha; cases ha; exact Option.some_ne_none _ (hb ▸ h2).symm
    · rw [h1] at ha; cases ha
      rw [h2] at hb; cases hb
      have := collectSyms_isSome tcs [] syms h3 tc hc
      rw [hd] at this; exact absurd this (by simp)
    · exact Option.some_ne_none _ (h ▸ h5).symm
    · exact Option.some_ne_none _ (h ▸ h6).symm
    · exact Option.some_ne_none _ (h ▸ h7).symm
    · exact Option.some_ne_none _ (h ▸ h8).symm
    · exact Option.some_ne_none _ (h ▸ h9).symm
    · exact Option.some_ne_none _ (h ▸ h10).symm

/-- C6 witness: a body populated except for `strand` still yields the
empty record. -/
theorem C6_amended_witness :
    parse_variant_data "NC_000017.11:g.43044295A>G" strandlessBody = [] :=
  C6_amended_missing_field_empty _ _
    (Or.inr (Or.inr (Or.inr (Or.inr (Or.inr (Or.inr (Or.inr (Or.inr rfl))))))))

/-! ## Gene-symbol deduplication (C4) -/

theorem json_beq_str_str (a b : String) : (Json.str a == Json.str b) = (a == b) := rfl

theorem contains_map_str (l : List String) (s : String) :
    (l.map Json.str).contains (Json.str s) = l.contains s := by
  induction l with
  | nil => rfl
  | cons x xs ih =>
    rw [List.map_cons, List.contains_cons, List.contains_cons, json_beq_str_str, ih]

theorem collectSyms_spec (tcs : List Json) :
    ∀ (syms accS : List String),
      tcs.map (fun tc => pyGetItemStr tc "gene_symbol") =
        syms.map (fun s => some (.str s)) →
      collectSyms tcs (accS.map Json.str) = some ((dedupAux syms accS).map Json.str) := by
  induction tcs with
  | nil =>
    intro syms accS h
    cases syms with
    | nil => rfl
    | cons s ss => simp at h
  | cons tc rest ih =>
    intro syms accS h
    cases syms with
    | nil => simp at h
    | cons s ss =>
      simp only [List.map_cons, List.cons.injEq] at h
      obtain ⟨htc, hrest⟩ := h
      simp only [collectSyms, htc, contains_map_str, dedupAux]
      by_cases hmem : accS.contains s = true
      · rw [if_pos hmem, if_pos hmem]
        exact ih ss accS hrest
      · rw [if_neg hmem, if_neg hmem]
        simpa using ih ss (accS ++ [s]) hrest

theorem joinComma_map_str (l : List String) :
    joinComma (l.map Json.str) = some (",".intercalate l) := by
  have hm : strList (l.map Json.str) = some l := by
    induction l with
    | nil => rfl
    | cons x xs ih => simp [strList, ih]
  simp [joinComma, hm]

/-- C4: whenever `transcript_consequences` iterates to elements whose
`gene_symbol` values are the strings `syms` (in order) and the remaining
required fields are present, the produced record's `gene_symbols` field is
the comma-join of the unique symbols in first-seen order. -/
theorem C4_gene_symbols_dedup (v : String) (j : Json) (tcsJ : Json)
    (tcs : List Json) (syms : List String)
    (h1 : pyGetItemStr j "transcript_consequences" = some tcsJ)
    (h2 : pyIterate tcsJ = some tcs)
    (h3 : tcs.map (fun tc => pyGetItemStr tc "gene_symbol") =
      syms.map (fun s => some (.str s)))
    (h4 : (pyGetItemStr j "assembly_name").isSome)
    (h5 : (pyGetItemStr j "seq_region_name").isSome)
    (h6 : (pyGetItemStr j "start").isSome)
    (h7 : (pyGetItemStr j "end").isSome)
    (h8 : (pyGetItemStr j "most_severe_consequence").isSome)
    (h9 : (pyGetItemStr j "strand").isSome) :
    ∃ a s st e m sd,
      parse_variant_data v j =
        [("variant", .str v), ("assembly_name", a), ("seq_region_name", s),
         ("start", st), ("end", e), ("most_severe_consequence", m), ("strand", sd),
         ("gene_symbols", .str (",".intercalate (dedupFirstSeen syms)))] := by
  obtain ⟨a, ha⟩ := Option.isSome_iff_exists.mp h4
  obtain ⟨s, hs⟩ := Option.isSome_iff_exists.mp h5
  obtain ⟨st, hst⟩ := Option.isSome_iff_exists.mp h6
  obtain ⟨e, he⟩ := Option.isSome_iff_exists.mp h7
  obtain ⟨m, hmsc⟩ := Option.isSome_iff_exists.mp h8
  obtain ⟨sd, hsd⟩ := Option.isSome_iff_exists.mp h9
  have hcol : collectSyms tcs [] = some ((dedupFirstSeen syms).map Json.str) := by
    have := collectSyms_spec tcs syms [] h3
    simpa [dedupFirstSeen] using this
  refine ⟨a, s, st, e, m, sd, ?_⟩
  simp [parse_variant_data, parseCore, h1, h2, hcol, joinComma_map_str,
    ha, hs, hst, he, hmsc, hsd]

/-- C4 witness: the spec §8 sample with repeated symbols BRCA1, BRCA1,
TP53 produces the field value "BRCA1,TP53". -/
theorem C4_gene_symbols_dedup_witness :
    ∃ a s st e m sd,
      parse_variant_data "NC_000017.11:g.43044295A>G" brca1Body =
        [("variant", .str "NC_000017.11:g.43044295A>G"), ("assembly_name", a),
         ("seq_region_name", s), ("start", st), ("end", e),
         ("most_severe_consequence", m), ("strand", sd),
         ("gene_symbols", .str "BRCA1,TP53")] :=
  C4_gene_symbols_dedup "NC_000017.11:g.43044295A>G" brca1Body _ _
    ["BRCA1", "BRCA1", "TP53"] rfl rfl rfl rfl rfl rfl rfl rfl rfl

/-! ## Fetcher behavior (C5) -/

theorem pyGetItemStr_isSome_obj {j : Json} {k : String} {x : Json}
    (h : pyGetItemStr j k = some x) : ∃ kvs, j = .obj kvs := by
  cases j with
  | obj kvs => exact ⟨kvs, rfl⟩
  | null => simp [pyGetItemStr] at h
  | bool b => simp [pyGetItemStr] at h
  | num n => simp [pyGetItemStr] at h
  | str s => simp [pyGetItemStr] at h
  | arr l => simp [pyGetItemStr] at h

/-- C5: the fetcher returns its failure value (`None`) for every response
whose status is not 2xx — the status check only logs, but the log line
itself evaluates `response.json()["error"]`, which raises unless the body
is a dict with that key, and a dict then fails `response.json()[0]` with
`KeyError` since JSON object keys are strings; transport faults are also
failures; and whenever the body is the JSON array the endpoint promises
and the fetcher does not fail, the value returned is the array's first
element. -/
theorem C5_fetch_error_and_first_element (resp : Response) :
    (∀ st body, resp = .ok st body → ¬(200 ≤ st ∧ st < 300) →
      get_variant_data resp = .null) ∧
    (resp = .fault → get_variant_data resp = .null) ∧
    (∀ st l, resp = .ok st (some (.arr l)) → get_variant_data resp ≠ .null →
      l.head? = some (get_variant_data resp)) := by
  refine ⟨?_, ?_, ?_⟩
  · rintro st body rfl hst
    have h200 : st ≠ 200 := by omega
    simp only [get_variant_data, ne_eq, h200, not_false_eq_true, if_true]
    cases body with
    | none => rfl
    | some j =>
      cases hj : pyGetItemStr j "error" with
      | none => simp only [hj]
      | some x =>
        obtain ⟨kvs, rfl⟩ := pyGetItemStr_isSome_obj hj
        simp only [hj]
        rfl
  · rintro rfl; rfl
  · rintro st l rfl hne
    by_cases h200 : st = 200
    · subst h200
      cases l with
      | nil => exact absurd rfl hne
      | cons x xs => rfl
    · exfalso
      apply hne
      simp only [get_variant_data, ne_eq, h200, not_false_eq_true, if_true]
      rfl

/-- C5 witness: a 500 response with an array body is a failure, a
transport fault is a failure, and a successful 200 response yields the
first array element. -/
theorem C5_fetch_witness :
    get_variant_data (.ok 500 (some (.arr [.num 7]))) = .null ∧
    get_variant_data .fault = .null ∧
    [Json.num 7].head? = some (get_variant_data (.ok 200 (some (.arr [.num 7])))) := by
  refine ⟨(C5_fetch_error_and_first_element _).1 500 _ rfl (by omega),
    (C5_fetch_error_and_first_element _).2.1 rfl,
    (C5_fetch_error_and_first_element _).2.2 200 [.num 7] rfl ?_⟩
  intro h
  exact Json.noConfusion h

/-! ## Batch accumulation (C8) -/

theorem annotate_loop_eq (fetch : String → Response) :
    ∀ (lines : List String) (data : List Rec),
      annotate_loop fetch lines data = data ++ lines.filterMap (fileStep fetch) := by
  intro lines
  induction lines with
  | nil => intro data; simp [annotate_loop]
  | cons line rest ih =>
    intro data
    simp only [annotate_loop]
    by_cases hv : validate_variant (pyStrip line) ≠ 0
    · have hs : fileStep fetch line = none := by
        simp only [fileStep]
        rw [if_pos hv]
      rw [if_pos hv, List.filterMap_cons, hs]
      exact ih data
    · by_cases ht : jTruthy (get_variant_data (fetch (pyStrip line)))
      · have hs : fileStep fetch line =
            some (parse_variant_data (pyStrip line) (get_variant_data (fetch (pyStrip line)))) := by
          simp only [fileStep]
          rw [if_neg hv, if_pos ht]
        rw [if_neg hv, if_pos ht, List.filterMap_cons, hs, ih]
        simp
      · have hs : fileStep fetch line = none := by
          simp only [fileStep]
          rw [if_neg hv, if_neg ht]
        rw [if_neg hv, if_neg ht, List.filterMap_cons, hs]
        exact ih data

/-- C8 counterexample: a line that validates and fetches successfully but
whose body has none of the required fields is not skipped — the empty
record produced by the failed extraction is appended to the accumulated
list, and the written file contains a blank data row for it. -/
theorem C8_counterexample :
    annotate_loop fetchNoFields ["NC_000006.12:g.152387156G>A"] [] = [([] : Rec)] ∧
    annotate_variants_from_file fetchNoFields true ["NC_000006.12:g.152387156G>A"] =
      { file := some "\r\n\r\n", err := none } := ⟨rfl, rfl⟩

/-! ## Writer output (C7) -/

theorem header8_nodup : header8.Nodup := by decide

theorem mapFst_lookup (r : Rec) (hnd : (r.map Prod.fst).Nodup) :
    (r.map Prod.fst).map (fun k =>
      match r.lookup k with
      | some v => csvVal v
      | none => "") = r.map (fun kv => csvVal kv.2) := by
  induction r with
  | nil => rfl
  | cons kv rest ih =>
    obtain ⟨k, v⟩ := kv
    simp only [List.map_cons] at hnd ⊢
    obtain ⟨hk, hnd2⟩ := List.nodup_cons.mp hnd
    congr 1
    · rw [List.lookup_cons_self]
    · have hagree : ∀ a ∈ rest.map Prod.fst,
          (match ((k, v) :: rest).lookup a with | some w => csvVal w | none => "") =
          (match rest.lookup a with | some w => csvVal w | none => "") := by
        intro a ha
        have hak : (a == k) = false :=
          beq_eq_false_iff_ne.mpr (fun hEq => hk (hEq ▸ ha))
        rw [List.lookup_cons, hak]
      rw [List.map_congr_left hagree]
      exact ih hnd2

theorem dictToRow_self (r : Rec) (hkeys : r.map Prod.fst = header8) :
    dictToRow header8 r = some (r.map (fun kv => csvVal kv.2)) := by
  have hall : r.all (fun kv => header8.contains kv.1) = true := by
    rw [List.all_eq_true]
    intro kv hkv
    have hmem : kv.1 ∈ header8 := hkeys ▸ List.mem_map_of_mem Prod.fst hkv
    exact List.elem_iff.mpr hmem
  rw [dictToRow, if_pos hall, ← hkeys,
    mapFst_lookup r (by rw [hkeys]; exact header8_nodup)]

theorem writeRows_wf (recs : List Rec) (h : ∀ r ∈ recs, WellFormedRec r) :
    writeRows header8 recs =
      concatRows (recs.map (fun r =>
        "\t".intercalate (r.map (fun kv => csvVal kv.2)) ++ "\r\n")) := by
  induction recs with
  | nil => rfl
  | cons r rest ih =>
    obtain ⟨hkeys, hplain⟩ := h r (List.mem_cons_self r rest)
    simp only [writeRows, dictToRow_self r hkeys]
    have hrow : csvRowString (r.map (fun kv => csvVal kv.2)) =
        "\t".intercalate (r.map (fun kv => csvVal kv.2)) ++ "\r\n" := by
      rw [csvRowString]
      congr 2
      rw [List.map_map]
      exact List.map_congr_left (fun kv hkv => by
        simp only [Function.comp_apply, csvField, hplain kv hkv, if_false]
        rfl)
    rw [hrow, ih (fun x hx => h x (List.mem_cons_of_mem r hx))]
    rfl

/-- C7: for every non-empty list of well-formed records (the eight field
names as keys in the fixed order, csv-clean rendered values), `write_tsv`
creates a file whose first row is the tab-separated header in the fixed
order, followed by exactly one tab-separated data row per record in list
order. -/
theorem C7_header_and_rows (recs : List Rec) (h1 : recs ≠ [])
    (h2 : ∀ r ∈ recs, WellFormedRec r) :
    write_tsv true recs =
      some ("\t".intercalate header8 ++ "\r\n" ++
        concatRows (recs.map (fun r =>
          "\t".intercalate (r.map (fun kv => csvVal kv.2)) ++ "\r\n"))) := by
  cases recs with
  | nil => exact absurd rfl h1
  | cons first rest =>
    obtain ⟨hkeys, _⟩ := h2 first (List.mem_cons_self first rest)
    rw [write_tsv, if_pos rfl, hkeys]
    show some (csvRowString header8 ++ writeRows header8 (first :: rest)) = _
    rw [writeRows_wf (first :: rest) h2]
    have hheader : csvRowString header8 = "\t".intercalate header8 ++ "\r\n" := by decide
    rw [hheader, String.append_assoc]

/-- C7 witness: writing the single spec §8 sample record produces exactly
the two-line TSV of the header row and that record's row. -/
theorem C7_header_and_rows_witness :
    write_tsv true [sampleRec] =
      some ("variant\tassembly_name\tseq_region_name\tstart\tend\tmost_severe_consequence\tstrand\tgene_symbols\r\nNC_000006.12:g.152387156G>A\tGRCh38\t6\t152387156\t152387156\tdownstream_gene_variant\t1\tSYNGAP1\r\n") :=
  C7_header_and_rows [sampleRec] (by simp)
    (by
      intro r hr
      rw [List.mem_singleton] at hr
      subst hr
      refine ⟨rfl, ?_⟩
      intro kv hkv
      simp only [sampleRec, List.mem_cons, List.not_mem_nil, or_false] at hkv
      rcases hkv with rfl | rfl | rfl | rfl | rfl | rfl | rfl | rfl <;> decide)

/-- C8 (amended): batch mode strips and validates each line, skips
invalid lines and lines whose fetched value is falsy (fetch failures),
and appends one record per remaining line in input order — the record
being whatever `parse_variant_data` returns, i.e. the empty record when
extraction fails rather than the line being skipped; the accumulated list
is written exactly once after all lines are processed. -/
theorem C8_amended_batch (fetch : String → Response) (writable : Bool)
    (lines : List String) :
    annotate_variants_from_file fetch writable lines =
      { file := write_tsv writable (lines.filterMap (fileStep fetch)), err := none } := by
  rw [annotate_variants_from_file, annotate_loop_eq]
  simp

/-! ## The accepted language of the validation regex (C1) -/

theorem Accepts_iff_accepts (r : Rx) (l : List Char) :
    accepts r l = true ↔ Accepts r l := by
  simp [accepts, Accepts]

theorem runsSeq_eq_nil {f : List Char → List (List Char)} :
    ∀ {ls : List (List Char)}, runsSeq f ls = [] ↔ ∀ l ∈ ls, f l = [] := by
  intro ls
  induction ls with
  | nil => simp [runsSeq]
  | cons y ys ih => simp [runsSeq, ih]

theorem mem_runsSeq {f : List Char → List (List Char)} {x : List Char} :
    ∀ {ls : List (List Char)}, x ∈ runsSeq f ls ↔ ∃ l ∈ ls, x ∈ f l := by
  intro ls
  induction ls with
  | nil => simp [runsSeq]
  | cons y ys ih => simp [runsSeq, ih]

theorem Accepts_seq {a b : Rx} {l : List Char} :
    Accepts (.seq a b) l ↔ ∃ l2 ∈ mruns a l, Accepts b l2 := by
  unfold Accepts
  rw [show mruns (.seq a b) l = runsSeq (fun l2 => mruns b l2) (mruns a l) from rfl]
  rw [ne_eq, runsSeq_eq_nil]
  push_neg
  rfl

theorem Accepts_alt {a b : Rx} {l : List Char} :
    Accepts (.alt a b) l ↔ Accepts a l ∨ Accepts b l := by
  unfold Accepts
  rw [show mruns (.alt a b) l = mruns a l ++ mruns b l from rfl]
  rw [ne_eq, List.append_eq_nil]
  tauto

theorem Accepts_seq_lit {c : Char} {r : Rx} {l : List Char} :
    Accepts (.seq (.lit c) r) l ↔ ∃ xs, l = c :: xs ∧ Accepts r xs := by
  rw [Accepts_seq]
  constructor
  · rintro ⟨l2, hmem, hacc⟩
    cases l with
    | nil => simp [mruns] at hmem
    | cons x xs =>
      by_cases hx : x = c
      · subst hx
        rw [show mruns (.lit x) (x :: xs) = if x = x then [xs] else [] from rfl,
          if_pos rfl, List.mem_singleton] at hmem
        subst hmem
        exact ⟨l2, rfl, hacc⟩
      · rw [show mruns (.lit c) (x :: xs) = if x = c then [xs] else [] from rfl,
          if_neg hx] at hmem
        simp at hmem
  · rintro ⟨xs, rfl, hacc⟩
    refine ⟨xs, ?_, hacc⟩
    rw [show mruns (.lit c) (c :: xs) = if c = c then [xs] else [] from rfl, if_pos rfl]
    exact List.mem_singleton.mpr rfl

theorem Accepts_seq_cls {p : Char → Bool} {r : Rx} {l : List Char} :
    Accepts (.seq (.cls p) r) l ↔ ∃ x xs, l = x :: xs ∧ p x = true ∧ Accepts r xs := by
  rw [Accepts_seq]
  constructor
  · rintro ⟨l2, hmem, hacc⟩
    cases l with
    | nil => simp [mruns] at hmem
    | cons x xs =>
      by_cases hp : p x
      · rw [show mruns (.cls p) (x :: xs) = if p x then [xs] else [] from rfl,
          if_pos hp, List.mem_singleton] at hmem
        subst hmem
        exact ⟨x, l2, rfl, hp, hacc⟩
      · rw [show mruns (.cls p) (x :: xs) = if p x then [xs] else [] from rfl,
          if_neg hp] at hmem
        simp at hmem
  · rintro ⟨x, xs, rfl, hp, hacc⟩
    refine ⟨xs, ?_, hacc⟩
    rw [show mruns (.cls p) (x :: xs) = if p x then [xs] else [] from rfl, if_pos hp]
    exact List.mem_singleton.mpr rfl

theorem Accepts_seq_any {r : Rx} {l : List Char} :
    Accepts (.seq .anyc r) l ↔ ∃ x xs, l = x :: xs ∧ x ≠ '\n' ∧ Accepts r xs := by
  rw [Accepts_seq]
  constructor
  · rintro ⟨l2, hmem, hacc⟩
    cases l with
    | nil => simp [mruns] at hmem
    | cons x xs =>
      by_cases hx : x = '\n'
      · rw [show mruns .anyc (x :: xs) = if x = '\n' then [] else [xs] from rfl,
          if_pos hx] at hmem
        simp at hmem
      · rw [show mruns .anyc (x :: xs) = if x = '\n' then [] else [xs] from rfl,
          if_neg hx, List.mem_singleton] at hmem
        subst hmem
        exact ⟨x, l2, rfl, hx, hacc⟩
  · rintro ⟨x, xs, rfl, hx, hacc⟩
    refine ⟨xs, ?_, hacc⟩
    rw [show mruns .anyc (x :: xs) = if x = '\n' then [] else [xs] from rfl, if_neg hx]
    exact List.mem_singleton.mpr rfl

theorem Accepts_seq_alt {a b r : Rx} {l : List Char} :
    Accepts (.seq (.alt a b) r) l ↔ Accepts (.seq a r) l ∨ Accepts (.seq b r) l := by
  rw [Accepts_seq, Accepts_seq, Accepts_seq]
  constructor
  · rintro ⟨l2, hmem, hacc⟩
    rcases List.mem_append.mp hmem with h | h
    · exact Or.inl ⟨l2, h, hacc⟩
    · exact Or.inr ⟨l2, h, hacc⟩
  · rintro (⟨l2, hmem, hacc⟩ | ⟨l2, hmem, hacc⟩)
    · exact ⟨l2, List.mem_append_left _ hmem, hacc⟩
    · exact ⟨l2, List.mem_append_right _ hmem, hacc⟩

theorem Accepts_seq_seq {a b c : Rx} {l : List Char} :
    Accepts (.seq (.seq a b) c) l ↔ Accepts (.seq a (.seq b c)) l := by
  rw [Accepts_seq, Accepts_seq]
  constructor
  · rintro ⟨l2, hmem, hacc⟩
    obtain ⟨l1, h1, h2⟩ := mem_runsSeq.mp hmem
    exact ⟨l1, h1, Accepts_seq.mpr ⟨l2, h2, hacc⟩⟩
  · rintro ⟨l1, h1, hacc⟩
    obtain ⟨l2, h2, hacc2⟩ := Accepts_seq.mp hacc
    exact ⟨l2, mem_runsSeq.mpr ⟨l1, h1, h2⟩, hacc2⟩

theorem Accepts_seq_eps {r : Rx} {l : List Char} :
    Accepts (.seq .eps r) l ↔ Accepts r l := by
  rw [Accepts_seq]
  simp [mruns]

theorem Accepts_lit {c : Char} {l : List Char} :
    Accepts (.lit c) l ↔ ∃ xs, l = c :: xs := by
  unfold Accepts
  cases l with
  | nil => simp [mruns]
  | cons x xs =>
    by_cases hx : x = c
    · subst hx; simp [mruns]
    · simp [mruns, hx]

theorem Accepts_gtAlt {l : List Char} :
    Accepts (.seq (.lit '>') rxAltBase) l ↔
      ∃ ab rest, l = '>' :: ab :: rest ∧ isAltBase ab = true := by
  rw [Accepts_seq_lit]
  constructor
  · rintro ⟨xs, rfl, h⟩
    rw [show rxAltBase = Rx.alt (.lit 'A') (.alt (.lit 'G') (.lit 'T')) from rfl,
      Accepts_alt, Accepts_alt] at h
    rcases h with h | h | h <;> obtain ⟨rest, rfl⟩ := Accepts_lit.mp h
    · exact ⟨'A', rest, rfl, rfl⟩
    · exact ⟨'G', rest, rfl, rfl⟩
    · exact ⟨'T', rest, rfl, rfl⟩
  · rintro ⟨ab, rest, rfl, hab⟩
    refine ⟨ab :: rest, rfl, ?_⟩
    have h3 : (ab = 'A' ∨ ab = 'G') ∨ ab = 'T' := by simpa [isAltBase] using hab
    rcases h3 with (rfl | rfl) | rfl
    · exact Accepts_alt.mpr (Or.inl (Accepts_lit.mpr ⟨rest, rfl⟩))
    · exact Accepts_alt.mpr (Or.inr (Accepts_alt.mpr (Or.inl (Accepts_lit.mpr ⟨rest, rfl⟩))))
    · exact Accepts_alt.mpr (Or.inr (Accepts_alt.mpr (Or.inr (Accepts_lit.mpr ⟨rest, rfl⟩))))

theorem Accepts_baseTail {l : List Char} :
    Accepts (.seq rxRefBase (.seq (.lit '>') rxAltBase)) l ↔
      ∃ rb ab rest, l = rb :: '>' :: ab :: rest ∧
        isRefBase rb = true ∧ isAltBase ab = true := by
  rw [show rxRefBase = Rx.alt (.lit 'A') (.alt (.lit 'C') (.alt (.lit 'G') (.lit 'T'))) from rfl,
    Accepts_seq_alt, Accepts_seq_alt, Accepts_seq_alt]
  constructor
  · rintro (h | h | h | h) <;> obtain ⟨xs, rfl, hgt⟩ := Accepts_seq_lit.mp h <;>
      obtain ⟨ab, rest, rfl, hab⟩ := Accepts_gtAlt.mp hgt
    · exact ⟨'A', ab, rest, rfl, rfl, hab⟩
    · exact ⟨'C', ab, rest, rfl, rfl, hab⟩
    · exact ⟨'G', ab, rest, rfl, rfl, hab⟩
    · exact ⟨'T', ab, rest, rfl, rfl, hab⟩
  · rintro ⟨rb, ab, rest, rfl, hrb, hab⟩
    have h4 : ((rb = 'A' ∨ rb = 'C') ∨ rb = 'G') ∨ rb = 'T' := by
      simpa [isRefBase] using hrb
    rcases h4 with ((rfl | rfl) | rfl) | rfl
    · exact Or.inl (Accepts_seq_lit.mpr ⟨_, rfl, Accepts_gtAlt.mpr ⟨ab, rest, rfl, hab⟩⟩)
    · exact Or.inr (Or.inl (Accepts_seq_lit.mpr ⟨_, rfl, Accepts_gtAlt.mpr ⟨ab, rest, rfl, hab⟩⟩))
    · exact Or.inr (Or.inr (Or.inl
        (Accepts_seq_lit.mpr ⟨_, rfl, Accepts_gtAlt.mpr ⟨ab, rest, rfl, hab⟩⟩)))
    · exact Or.inr (Or.inr (Or.inr
        (Accepts_seq_lit.mpr ⟨_, rfl, Accepts_gtAlt.mpr ⟨ab, rest, rfl, hab⟩⟩)))

theorem Accepts_version {r : Rx} {l : List Char} :
    Accepts (.seq rxVersion r) l ↔
      ∃ v xs, l = '1' :: v :: xs ∧ (v = '1' ∨ v = '2') ∧ Accepts r xs := by
  rw [show rxVersion = Rx.alt (.seq (.lit '1') (.lit '1')) (.seq (.lit '1') (.lit '2')) from rfl,
    Accepts_seq_alt, Accepts_seq_seq, Accepts_seq_seq]
  simp only [Accepts_seq_lit]
  constructor
  · rintro (⟨xs, rfl, xs2, rfl, hacc⟩ | ⟨xs, rfl, xs2, rfl, hacc⟩)
    · exact ⟨'1', xs2, rfl, Or.inl rfl, hacc⟩
    · exact ⟨'2', xs2, rfl, Or.inr rfl, hacc⟩
  · rintro ⟨v, xs, rfl, hv, hacc⟩
    rcases hv with rfl | rfl
    · exact Or.inl ⟨'1' :: xs, rfl, xs, rfl, hacc⟩
    · exact Or.inr ⟨'2' :: xs, rfl, xs, rfl, hacc⟩

theorem exists_cons_len {α : Type} {l : List α} {n : Nat} (h : l.length = n + 1) :
    ∃ a t, l = a :: t ∧ t.length = n := by
  cases l with
  | nil => simp at h
  | cons a t => exact ⟨a, t, rfl, by simpa using h⟩

theorem exists_eight {α : Type} (l : List α) (h : l.length = 8) :
    ∃ a1 a2 a3 a4 a5 a6 a7 a8, l = [a1, a2, a3, a4, a5, a6, a7, a8] := by
  obtain ⟨a1, t1, rfl, k1⟩ := exists_cons_len (l := l) (show l.length = 7 + 1 by omega)
  obtain ⟨a2, t2, rfl, k2⟩ := exists_cons_len (show t1.length = 6 + 1 by omega)
  obtain ⟨a3, t3, rfl, k3⟩ := exists_cons_len (show t2.length = 5 + 1 by omega)
  obtain ⟨a4, t4, rfl, k4⟩ := exists_cons_len (show t3.length = 4 + 1 by omega)
  obtain ⟨a5, t5, rfl, k5⟩ := exists_cons_len (show t4.length = 3 + 1 by omega)
  obtain ⟨a6, t6, rfl, k6⟩ := exists_cons_len (show t5.length = 2 + 1 by omega)
  obtain ⟨a7, t7, rfl, k7⟩ := exists_cons_len (show t6.length = 1 + 1 by omega)
  obtain ⟨a8, t8, rfl, k8⟩ := exists_cons_len (show t7.length = 0 + 1 by omega)
  rw [List.length_eq_zero] at k8
  subst k8
  exact ⟨a1, a2, a3, a4, a5, a6, a7, a8, rfl⟩

theorem exists_nine {α : Type} (l : List α) (h : l.length = 9) :
    ∃ a0 a1 a2 a3 a4 a5 a6 a7 a8, l = [a0, a1, a2, a3, a4, a5, a6, a7, a8] := by
  obtain ⟨a0, t0, rfl, k0⟩ := exists_cons_len (l := l) (show l.length = 8 + 1 by omega)
  obtain ⟨a1, a2, a3, a4, a5, a6, a7, a8, rfl⟩ := exists_eight t0 k0
  exact ⟨a0, a1, a2, a3, a4, a5, a6, a7, a8, rfl⟩

theorem Accepts_rxTail {l : List Char} :
    Accepts rxTail l ↔
      ∃ y m rb ab rest,
        l = ':' :: 'g' :: y :: (m ++ rb :: '>' :: ab :: rest) ∧ y ≠ '\n' ∧
        (m.length = 8 ∨ m.length = 9) ∧ (∀ c ∈ m, c.isDigit = true) ∧
        isRefBase rb = true ∧ isAltBase ab = true := by
  unfold rxTail
  rw [show rxDigit = Rx.cls Char.isDigit from rfl]
  constructor
  · intro h
    rw [Accepts_seq_lit] at h; obtain ⟨l1, rfl, h⟩ := h
    rw [Accepts_seq_lit] at h; obtain ⟨l2, rfl, h⟩ := h
    rw [Accepts_seq_any] at h; obtain ⟨y, l3, rfl, hy, h⟩ := h
    rw [Accepts_seq_cls] at h; obtain ⟨e1, l4, rfl, hd1, h⟩ := h
    rw [Accepts_seq_cls] at h; obtain ⟨e2, l5, rfl, hd2, h⟩ := h
    rw [Accepts_seq_cls] at h; obtain ⟨e3, l6, rfl, hd3, h⟩ := h
    rw [Accepts_seq_cls] at h; obtain ⟨e4, l7, rfl, hd4, h⟩ := h
    rw [Accepts_seq_cls] at h; obtain ⟨e5, l8, rfl, hd5, h⟩ := h
    rw [Accepts_seq_cls] at h; obtain ⟨e6, l9, rfl, hd6, h⟩ := h
    rw [Accepts_seq_cls] at h; obtain ⟨e7, l10, rfl, hd7, h⟩ := h
    rw [Accepts_seq_cls] at h; obtain ⟨e8, l11, rfl, hd8, h⟩ := h
    rw [Accepts_seq_alt] at h
    rcases h with h | h
    · rw [Accepts_seq_cls] at h; obtain ⟨e9, l12, rfl, hd9, h⟩ := h
      rw [Accepts_baseTail] at h; obtain ⟨rb, ab, rest, rfl, hrb, hab⟩ := h
      refine ⟨y, [e1, e2, e3, e4, e5, e6, e7, e8, e9], rb, ab, rest, rfl, hy,
        Or.inr rfl, ?_, hrb, hab⟩
      intro c hc
      simp only [List.mem_cons, List.not_mem_nil, or_false] at hc
      rcases hc with rfl | rfl | rfl | rfl | rfl | rfl | rfl | rfl | rfl <;> assumption
    · rw [Accepts_seq_eps] at h
      rw [Accepts_baseTail] at h; obtain ⟨rb, ab, rest, rfl, hrb, hab⟩ := h
      refine ⟨y, [e1, e2, e3, e4, e5, e6, e7, e8], rb, ab, rest, rfl, hy,
        Or.inl rfl, ?_, hrb, hab⟩
      intro c hc
      simp only [List.mem_cons, List.not_mem_nil, or_false] at hc
      rcases hc with rfl | rfl | rfl | rfl | rfl | rfl | rfl | rfl <;> assumption
  · rintro ⟨y, m, rb, ab, rest, rfl, hy, hlen, hdig, hrb, hab⟩
    rcases hlen with h8 | h9
    · obtain ⟨e1, e2, e3, e4, e5, e6, e7, e8, rfl⟩ := exists_eight m h8
      refine Accepts_seq_lit.mpr ⟨_, rfl, ?_⟩
      refine Accepts_seq_lit.mpr ⟨_, rfl, ?_⟩
      refine Accepts_seq_any.mpr ⟨y, _, rfl, hy, ?_⟩
      refine Accepts_seq_cls.mpr ⟨e1, _, rfl, hdig e1 (by simp), ?_⟩
      refine Accepts_seq_cls.mpr ⟨e2, _, rfl, hdig e2 (by simp), ?_⟩
      refine Accepts_seq_cls.mpr ⟨e3, _, rfl, hdig e3 (by simp), ?_⟩
      refine Accepts_seq_cls.mpr ⟨e4, _, rfl, hdig e4 (by simp), ?_⟩
      refine Accepts_seq_cls.mpr ⟨e5, _, rfl, hdig e5 (by simp), ?_⟩
      refine Accepts_seq_cls.mpr ⟨e6, _, rfl, hdig e6 (by simp), ?_⟩
      refine Accepts_seq_cls.mpr ⟨e7, _, rfl, hdig e7 (by simp), ?_⟩
      refine Accepts_seq_cls.mpr ⟨e8, _, rfl, hdig e8 (by simp), ?_⟩
      refine Accepts_seq_alt.mpr (Or.inr (Accepts_seq_eps.mpr ?_))
      exact Accepts_baseTail.mpr ⟨rb, ab, rest, rfl, hrb, hab⟩
    · obtain ⟨e0, e1, e2, e3, e4, e5, e6, e7, e8, rfl⟩ := exists_nine m h9
      refine Accepts_seq_lit.mpr ⟨_, rfl, ?_⟩
      refine Accepts_seq_lit.mpr ⟨_, rfl, ?_⟩
      refine Accepts_seq_any.mpr ⟨y, _, rfl, hy, ?_⟩
      refine Accepts_seq_cls.mpr ⟨e0, _, rfl, hdig e0 (by simp), ?_⟩
      refine Accepts_seq_cls.mpr ⟨e1, _, rfl, hdig e1 (by simp), ?_⟩
      refine Accepts_seq_cls.mpr ⟨e2, _, rfl, hdig e2 (by simp), ?_⟩
      refine Accepts_seq_cls.mpr ⟨e3, _, rfl, hdig e3 (by simp), ?_⟩
      refine Accepts_seq_cls.mpr ⟨e4, _, rfl, hdig e4 (by simp), ?_⟩
      refine Accepts_seq_cls.mpr ⟨e5, _, rfl, hdig e5 (by simp), ?_⟩
      refine Accepts_seq_cls.mpr ⟨e6, _, rfl, hdig e6 (by simp), ?_⟩
      refine Accepts_seq_cls.mpr ⟨e7, _, rfl, hdig e7 (by simp), ?_⟩
      refine Accepts_seq_alt.mpr (Or.inl ?_)
      refine Accepts_seq_cls.mpr ⟨e8, _, rfl, hdig e8 (by simp), ?_⟩
      exact Accepts_baseTail.mpr ⟨rb, ab, rest, rfl, hrb, hab⟩

theorem Accepts_variantRx_iff (l : List Char) :
    Accepts variantRx l ↔ CodePrefixPattern l := by
  unfold variantRx CodePrefixPattern
  rw [show rxDigit = Rx.cls Char.isDigit from rfl]
  constructor
  · intro h
    rw [Accepts_seq_lit] at h; obtain ⟨l1, rfl, h⟩ := h
    rw [Accepts_seq_lit] at h; obtain ⟨l2, rfl, h⟩ := h
    rw [Accepts_seq_lit] at h; obtain ⟨l3, rfl, h⟩ := h
    rw [Accepts_seq_cls] at h; obtain ⟨d1, l4, rfl, hd1, h⟩ := h
    rw [Accepts_seq_cls] at h; obtain ⟨d2, l5, rfl, hd2, h⟩ := h
    rw [Accepts_seq_cls] at h; obtain ⟨d3, l6, rfl, hd3, h⟩ := h
    rw [Accepts_seq_cls] at h; obtain ⟨d4, l7, rfl, hd4, h⟩ := h
    rw [Accepts_seq_cls] at h; obtain ⟨d5, l8, rfl, hd5, h⟩ := h
    rw [Accepts_seq_cls] at h; obtain ⟨d6, l9, rfl, hd6, h⟩ := h
    rw [Accepts_seq_any] at h; obtain ⟨x, l10, rfl, hx, h⟩ := h
    rw [Accepts_version] at h; obtain ⟨v, l11, rfl, hv, h⟩ := h
    rw [Accepts_rxTail] at h
    obtain ⟨y, m, rb, ab, rest, rfl, hy, hlen, hdig, hrb, hab⟩ := h
    exact ⟨d1, d2, d3, d4, d5, d6, x, v, y, m, rb, ab, rest, rfl,
      ⟨hd1, hd2, hd3, hd4, hd5, hd6⟩, hx, hv, hy, hlen, hdig, hrb, hab⟩
  · rintro ⟨d1, d2, d3, d4, d5, d6, x, v, y, m, rb, ab, rest, rfl,
      ⟨hd1, hd2, hd3, hd4, hd5, hd6⟩, hx, hv, hy, hlen, hdig, hrb, hab⟩
    refine Accepts_seq_lit.mpr ⟨_, rfl, ?_⟩
    refine Accepts_seq_lit.mpr ⟨_, rfl, ?_⟩
    refine Accepts_seq_lit.mpr ⟨_, rfl, ?_⟩
    refine Accepts_seq_cls.mpr ⟨d1, _, rfl, hd1, ?_⟩
    refine Accepts_seq_cls.mpr ⟨d2, _, rfl, hd2, ?_⟩
    refine Accepts_seq_cls.mpr ⟨d3, _, rfl, hd3, ?_⟩
    refine Accepts_seq_cls.mpr ⟨d4, _, rfl, hd4, ?_⟩
    refine Accepts_seq_cls.mpr ⟨d5, _, rfl, hd5, ?_⟩
    refine Accepts_seq_cls.mpr ⟨d6, _, rfl, hd6, ?_⟩
    refine Accepts_seq_any.mpr ⟨x, _, rfl, hx, ?_⟩
    refine Accepts_version.mpr ⟨v, _, rfl, hv, ?_⟩
    exact Accepts_rxTail.mpr ⟨y, m, rb, ab, rest, rfl, hy, hlen, hdig, hrb, hab⟩

theorem validate_iff_Accepts (s : String) :
    validate_variant s = 0 ↔ Accepts variantRx s.data := by
  rw [← Accepts_iff_accepts]
  unfold validate_variant
  cases h : accepts variantRx s.data
  · simp [h]
  · simp [h]

/-- C1 counterexample: the claim's pattern (literal dots, alternate base
ranging over ACGT) disagrees with the code in both directions —
`NC_000006.12:g.152387156G>C` matches the documented pattern but is
rejected (the alternation after `>` is only `(A|G|T)`), while
`NC_000006x12:gx152387156G>A` fails the documented pattern but is
accepted (the two unescaped dots match any character). -/
theorem C1_counterexample :
    specVariantPattern "NC_000006.12:g.152387156G>C" = true ∧
    validate_variant "NC_000006.12:g.152387156G>C" = 1 ∧
    specVariantPattern "NC_000006x12:gx152387156G>A" = false ∧
    validate_variant "NC_000006x12:gx152387156G>A" = 0 := by
  refine ⟨rfl, by decide, rfl, by decide⟩

/-- C1 (amended): `validate_variant` accepts exactly the strings whose
prefix is `NC_` + six digits + any non-newline character + `1` + (`1` or
`2`) + `:g` + any non-newline character + 8-9 digits + a reference base in
ACGT + `>` + an alternate base in AGT (the missing `C` and the wildcard
dot positions are what the regex actually prescribes); arbitrary trailing
characters are allowed, and `0` is the accepting return value. -/
theorem C1_amended_validate_language (s : String) :
    validate_variant s = 0 ↔ CodePrefixPattern s.data := by
  rw [validate_iff_Accepts]
  exact Accepts_variantRx_iff s.data

end TcVariant
